import Mathlib

/-!
# Verification of the LensMint hardware identity core (`hardware_identity.py`)

Shallow embedding of the hardware-bound identity and signing core of the
`lensmint-camera` repository.  Bytes are modelled as `List Nat` (each entry a
byte value `< 256`), Python `str` values as Lean `String`, and Python
exceptions as the `Except` monad.  External cryptographic libraries (the
`ecdsa` package's key derivation / signing / verification and the optional
keccak-256 implementation) are modelled as explicit function parameters, since
their code is not part of the repository; `hashlib.sha256` is embedded
concretely below.
-/

set_option autoImplicit false

namespace LensMint

/-! ## Bytes and hex encoding (Python `bytes.hex`, `bytes.fromhex`) -/

/-- Hex digit for a nibble, lowercase, as produced by Python `bytes.hex()`. -/
def hexNibbleChar (n : Nat) : Char :=
  if n < 10 then Char.ofNat (48 + n) else Char.ofNat (87 + n)

/-- `bytes.hex()` / `hexdigest()` as a character list: two lowercase hex
digits per byte, in order. -/
def bytesToHexChars (bs : List Nat) : List Char :=
  bs.flatMap (fun b => [hexNibbleChar (b / 16), hexNibbleChar (b % 16)])

/-- `bytes.hex()` as a `String`. -/
def bytesToHex (bs : List Nat) : String :=
  String.mk (bytesToHexChars bs)

/-- The numeric value of one hex digit (`0-9`, `a-f`, `A-F`), if any. -/
def hexVal (c : Char) : Option Nat :=
  if '0' ≤ c ∧ c ≤ '9' then some (c.toNat - 48)
  else if 'a' ≤ c ∧ c ≤ 'f' then some (c.toNat - 87)
  else if 'A' ≤ c ∧ c ≤ 'F' then some (c.toNat - 55)
  else none

/-- ASCII whitespace, which Python's `bytes.fromhex` skips between bytes. -/
def isAsciiWS (c : Char) : Bool :=
  (c == ' ') || (c == '\t') || (c == '\n') || (c == '\r') || (c == '\x0b') || (c == '\x0c')

/-- Parser core of Python `bytes.fromhex`: two contiguous hex digits per
byte, ASCII whitespace allowed between bytes; `none` models the
`ValueError` raised on any other character or on a trailing lone digit. -/
def fromHexPairs : List Char → Option (List Nat)
  | [] => some []
  | [c] => if isAsciiWS c then some [] else none
  | c1 :: c2 :: rest =>
    if isAsciiWS c1 then fromHexPairs (c2 :: rest)
    else
      match hexVal c1, hexVal c2 with
      | some h, some l =>
        match fromHexPairs rest with
        | some bs => some ((16 * h + l) :: bs)
        | none => none
      | _, _ => none

/-- Python `bytes.fromhex`. -/
def bytesFromHex (s : String) : Option (List Nat) :=
  fromHexPairs s.data

/-- Character-list core of Python `s.replace('0x', '')`: removes every
(non-overlapping, left-to-right) occurrence of `0x`. -/
def remove0x : List Char → List Char
  | '0' :: 'x' :: rest => remove0x rest
  | c :: rest => c :: remove0x rest
  | [] => []

/-- Python `s.replace('0x', '')`, used by the source to normalise hex
strings with an optional leading `0x`. -/
def strip0x (s : String) : String :=
  String.mk (remove0x s.data)

/-- UTF-8 encoding of a string, as Python `s.encode('utf-8')`. -/
def utf8Encode (s : String) : List Nat :=
  s.data.flatMap (fun c => (String.utf8EncodeChar c).map (fun b => b.toNat))

/-- Python `l[-n:]`: the last `n` elements (the whole list when shorter). -/
def lastN (n : Nat) (l : List Nat) : List Nat :=
  l.drop (l.length - n)

/-! ## SHA-256 (concrete embedding of `hashlib.sha256`) -/

/-- Truncation to a 32-bit word. -/
def w32 (n : Nat) : Nat := n % 4294967296

/-- Right rotation of a 32-bit word. -/
def rotr32 (x n : Nat) : Nat := w32 ((x >>> n) ||| (x <<< (32 - n)))

def shaCh (x y z : Nat) : Nat := (x &&& y) ^^^ ((x ^^^ 4294967295) &&& z)

def shaMaj (x y z : Nat) : Nat := (x &&& y) ^^^ (x &&& z) ^^^ (y &&& z)

def bigSigma0 (x : Nat) : Nat := rotr32 x 2 ^^^ rotr32 x 13 ^^^ rotr32 x 22

def bigSigma1 (x : Nat) : Nat := rotr32 x 6 ^^^ rotr32 x 11 ^^^ rotr32 x 25

def smallSigma0 (x : Nat) : Nat := rotr32 x 7 ^^^ rotr32 x 18 ^^^ (x >>> 3)

def smallSigma1 (x : Nat) : Nat := rotr32 x 17 ^^^ rotr32 x 19 ^^^ (x >>> 10)

/-- The 64 SHA-256 round constants, written in decimal. -/
def shaK : List Nat :=
  [1116352408, 1899447441, 3049323471, 3921009573, 961987163, 1508970993,
   2453635748, 2870763221, 3624381080, 310598401, 607225278, 1426881987,
   1925078388, 2162078206, 2614888103, 3248222580, 3835390401, 4022224774,
   264347078, 604807628, 770255983, 1249150122, 1555081692, 1996064986,
   2554220882, 2821834349, 2952996808, 3210313671, 3336571891, 3584528711,
   113926993, 338241895, 666307205, 773529912, 1294757372, 1396182291,
   1695183700, 1986661051, 2177026350, 2456956037, 2730485921, 2820302411,
   3259730800, 3345764771, 3516065817, 3600352804, 4094571909, 275423344,
   430227734, 506948616, 659060556, 883997877, 958139571, 1322822218,
   1537002063, 1747873779, 1955562222, 2024104815, 2227730452, 2361852424,
   2428436474, 2756734187, 3204031479, 3329325298]

/-- The SHA-256 initial hash state, written in decimal. -/
def shaH0 : List Nat :=
  [1779033703, 3144134277, 1013904242, 2773480762, 1359893119, 2600822924,
   528734635, 1541459225]

/-- Big-endian 4-byte words from a byte list (requires a multiple of 4). -/
def bytesToWords : List Nat → List Nat
  | a :: b :: c :: d :: rest => (((a * 256 + b) * 256 + c) * 256 + d) :: bytesToWords rest
  | _ => []

/-- Split a word list into 16-word blocks. -/
def wordsToBlocks : List Nat → List (List Nat)
  | w0 :: w1 :: w2 :: w3 :: w4 :: w5 :: w6 :: w7 ::
    w8 :: w9 :: w10 :: w11 :: w12 :: w13 :: w14 :: w15 :: rest =>
    [w0, w1, w2, w3, w4, w5, w6, w7, w8, w9, w10, w11, w12, w13, w14, w15] :: wordsToBlocks rest
  | _ => []

/-- Extend the 16 block words to the 64-entry message schedule, appending
`n` further words. -/
def extendSchedule : Nat → List Nat → List Nat
  | 0, acc => acc
  | n + 1, acc =>
    let k := acc.length
    extendSchedule n (acc ++ [w32 (smallSigma1 (acc.getD (k - 2) 0) + acc.getD (k - 7) 0 +
      smallSigma0 (acc.getD (k - 15) 0) + acc.getD (k - 16) 0)])

/-- One SHA-256 compression round; the state is `[a, b, c, d, e, f, g, h]`
and `kw` is the current round constant plus schedule word. -/
def shaRound (st : List Nat) (kw : Nat) : List Nat :=
  let a := st.getD 0 0
  let b := st.getD 1 0
  let c := st.getD 2 0
  let d := st.getD 3 0
  let e := st.getD 4 0
  let f := st.getD 5 0
  let g := st.getD 6 0
  let h := st.getD 7 0
  let t1 := w32 (h + bigSigma1 e + shaCh e f g + kw)
  let t2 := w32 (bigSigma0 a + shaMaj a b c)
  [w32 (t1 + t2), a, b, c, w32 (d + t1), e, f, g]

/-- Compress one 16-word block into the running hash state. -/
def compressBlock (h : List Nat) (block : List Nat) : List Nat :=
  let ws := extendSchedule 48 block
  let kws := (shaK.zip ws).map (fun p => w32 (p.1 + p.2))
  let st := kws.foldl shaRound h
  (h.zip st).map (fun p => w32 (p.1 + p.2))

/-- Big-endian bytes of a 32-bit word. -/
def wordToBytes (w : Nat) : List Nat :=
  [(w >>> 24) % 256, (w >>> 16) % 256, (w >>> 8) % 256, w % 256]

/-- Big-endian 8-byte encoding of the bit length, for SHA-256 padding. -/
def lengthBytes (n : Nat) : List Nat :=
  [(n >>> 56) % 256, (n >>> 48) % 256, (n >>> 40) % 256, (n >>> 32) % 256,
   (n >>> 24) % 256, (n >>> 16) % 256, (n >>> 8) % 256, n % 256]

/-- `hashlib.sha256(msg).digest()`: the 32-byte SHA-256 digest. -/
def sha256 (msg : List Nat) : List Nat :=
  let L := msg.length
  let padded := msg ++ 0x80 :: List.replicate ((119 - L % 64) % 64) 0 ++ lengthBytes (8 * L)
  let blocks := wordsToBlocks (bytesToWords padded)
  let hfin := blocks.foldl compressBlock shaH0
  hfin.flatMap wordToBytes

/-! ## External libraries as parameters

The `ecdsa` package (key derivation over secp256k1, signing, verification)
and the optional keccak-256 implementation are third-party native libraries,
not part of this repository, so they enter the embedding as explicit
function parameters.  `ECDSALib.sign` takes an extra entropy argument
because `SigningKey.sign` draws a random nonce internally; `ECDSALib.verify`
returns `false` where the library would raise `BadSignatureError` (the
source wraps the call in `try/except` and maps every library exception to
`False`, see `verify_signature`). -/

structure ECDSALib where
  /-- `SigningKey.from_string(seed).get_verifying_key().to_string()`. -/
  pubkey : List Nat → List Nat
  /-- `SigningKey.sign`: private scalar bytes, nonce entropy, data. -/
  sign : List Nat → List Nat → List Nat → List Nat
  /-- `VerifyingKey.verify`: public key bytes, signature bytes, data. -/
  verify : List Nat → List Nat → List Nat → Bool

/-! ## Python-level values and exceptions -/

/-- The Python exceptions the embedded code can raise. -/
inductive PyErr where
  /-- `RuntimeError(msg)`. -/
  | runtimeError (msg : String)
  /-- `ValueError`, as raised by `bytes.fromhex` on malformed input. -/
  | valueError
  /-- An `OSError` (or other environment error) propagating uncaught. -/
  | osError
deriving DecidableEq

/-- An argument that may be a Python `str` or `bytes`, matching the
`isinstance(x, str)` dispatch in the source. -/
inductive PyData where
  | str (s : String)
  | bytes (b : List Nat)
deriving DecidableEq

/-- The `if isinstance(data, str): data = data.encode('utf-8')` dispatch. -/
def dataToBytes : PyData → List Nat
  | .str s => utf8Encode s
  | .bytes b => b

/-! ## Filesystem and hardware environment model -/

/-- Outcome of probing/reading one salt file path. -/
inductive ReadResult where
  /-- `os.path.exists` is false. -/
  | absent
  /-- The path exists but opening it raises `PermissionError`. -/
  | permDenied
  /-- The path exists but reading raises some other `OSError`. -/
  | readError
  /-- The path exists and reading yields these bytes. -/
  | fileData (bytes : List Nat)
deriving DecidableEq

/-- Filesystem state as seen by `_get_or_create_salt` and `sign_hash`:
the two candidate salt files, the bytes `os.urandom(32)` would return,
and whether a write to each location would succeed. -/
structure FS where
  primary : ReadResult
  backup : ReadResult
  urandom32 : List Nat
  primaryWriteOk : Bool
  backupWriteOk : Bool
deriving DecidableEq

/-- `os.path.exists(SALT_PATH)`. -/
def primaryExists (fs : FS) : Bool :=
  fs.primary ≠ ReadResult.absent

/-- Hardware identifier sources probed by `_get_hardware_id`, each
best-effort: `none` models the source being absent or its read failing
(every such failure is caught and skipped in the source). -/
structure Env where
  /-- Value after the first `Serial` line of `/proc/cpuinfo`, if found. -/
  cpuSerial : Option String
  /-- MAC address of the first interface of `['wlan0', 'eth0']` present. -/
  macAddr : Option String
  /-- Stripped contents of `/etc/machine-id`, if present and readable. -/
  machineId : Option String
deriving DecidableEq

/-- `SALT_PATH` (default `'/boot/.device_salt'`). -/
def SALT_PATH : String := "/boot/.device_salt"

/-- `str(SALT_BACKUP_PATH)` (default `Path.home() / '.lensmint' /
'.device_salt_backup'`, with the device user's home modelled concretely). -/
def SALT_BACKUP_PATH : String := "/home/pi/.lensmint/.device_salt_backup"

/-! ## `HardwareIdentity` -/

/-- The state of a constructed `HardwareIdentity` object. -/
structure Identity where
  salt : List Nat
  privateKey : List Nat
  publicKey : List Nat
  address : String
  initialized : Bool
  cameraId : Option String
deriving DecidableEq

instance : Inhabited Identity :=
  ⟨⟨[], [], [], "", false, none⟩⟩

/-- Salt-creation phase of `_get_or_create_salt` (lines 86-103): draw
`os.urandom(32)` and try to persist it at the primary path; on
`PermissionError`/`OSError` fall back to the backup path, whose own write
failure propagates. -/
def saltCreatePhase (fs : FS) : Except PyErr (List Nat) :=
  if fs.primaryWriteOk then .ok fs.urandom32
  else if fs.backupWriteOk then .ok fs.urandom32
  else .error .osError

/-- Backup phase of `_get_or_create_salt` (lines 76-84): if the backup file
exists, read it inside `except Exception` (so every failure falls through);
accept the data only when it is exactly 32 bytes. -/
def saltBackupPhase (fs : FS) : Except PyErr (List Nat) :=
  match fs.backup with
  | .fileData b => if b.length = 32 then .ok b else saltCreatePhase fs
  | .absent => saltCreatePhase fs
  | .permDenied => saltCreatePhase fs
  | .readError => saltCreatePhase fs

/-- `_get_or_create_salt` (lines 65-103).  The primary read catches only
`PermissionError`; any other read error propagates.  Data of length other
than 32 falls through to the next candidate. -/
def get_or_create_salt (fs : FS) : Except PyErr (List Nat) :=
  match fs.primary with
  | .fileData b => if b.length = 32 then .ok b else saltBackupPhase fs
  | .permDenied => saltBackupPhase fs
  | .readError => .error .osError
  | .absent => saltBackupPhase fs

/-- The identifier list built by `_get_hardware_id` (lines 105-148), in
source order: camera id (skipped when absent or empty, by Python
truthiness), CPU serial, MAC address, machine id. -/
def collectIds (cameraId : Option String) (env : Env) : List String :=
  (match cameraId with
   | some c => if c = "" then [] else ["camera:" ++ c]
   | none => []) ++
  (match env.cpuSerial with | some s => ["serial:" ++ s] | none => []) ++
  (match env.macAddr with | some m => ["mac:" ++ m] | none => []) ++
  (match env.machineId with | some m => ["machine:" ++ m] | none => [])

/-- `_get_hardware_id` (lines 105-155): raises `RuntimeError` when no
identifier was collected, else the UTF-8 bytes of the `|`-joined list. -/
def get_hardware_id (cameraId : Option String) (env : Env) : Except PyErr (List Nat) :=
  let ids := collectIds cameraId env
  if ids.isEmpty then .error (.runtimeError "Could not collect any hardware identifiers")
  else .ok (utf8Encode (String.intercalate "|" ids))

/-- `_derive_key` (lines 157-162): the private scalar is
`sha256(hw_id + salt)` and the public key is derived from it. -/
def derive_key (E : ECDSALib) (hwId salt : List Nat) : List Nat × List Nat :=
  let seed := sha256 (hwId ++ salt)
  (seed, E.pubkey seed)

/-- `_get_address` (lines 164-188): with keccak available, hex of the last
20 bytes of `keccak256(pub)`, `0x`-prefixed; otherwise the first 40
characters of `sha256(pub).hexdigest()`, `0x`-prefixed. -/
def get_address (keccakAvailable : Bool) (keccakFn : List Nat → List Nat)
    (pub : List Nat) : String :=
  if keccakAvailable then
    String.mk ('0' :: 'x' :: bytesToHexChars (lastN 20 (keccakFn pub)))
  else
    String.mk ('0' :: 'x' :: (bytesToHexChars (sha256 pub)).take 40)

/-- `HardwareIdentity.__init__` / `_initialize` (lines 38-63): runs salt
lookup, fingerprint collection, key derivation and address derivation;
any failure re-raises (after logging) and no object is exposed.  On
success the object has `initialized = True`. -/
def mkIdentity (E : ECDSALib) (keccakAvailable : Bool) (keccakFn : List Nat → List Nat)
    (fs : FS) (env : Env) (cameraId : Option String) : Except PyErr Identity :=
  match get_or_create_salt fs with
  | .error e => .error e
  | .ok salt =>
    match get_hardware_id cameraId env with
    | .error e => .error e
    | .ok hwId =>
      let kp := derive_key E hwId salt
      let addr := get_address keccakAvailable keccakFn kp.2
      .ok { salt := salt, privateKey := kp.1, publicKey := kp.2, address := addr,
            initialized := true, cameraId := cameraId }

/-- The error raised by `sign_data`, `sign_hash` and `verify_signature`
when the identity is not initialized. -/
def notInitErr : PyErr := .runtimeError "Hardware identity not initialized"

/-- `sign_data` (lines 190-198): UTF-8-encode a `str` argument, then sign
with the private key (the library draws `entropy` internally). -/
def sign_data (E : ECDSALib) (ident : Identity) (entropy : List Nat)
    (data : PyData) : Except PyErr (List Nat) :=
  if ident.initialized = false then .error notInitErr
  else .ok (E.sign ident.privateKey entropy (dataToBytes data))

/-- The record returned by `sign_hash`. -/
structure SignatureRecord where
  signature : String
  address : String
  algorithm : String
  saltPath : String
deriving DecidableEq

/-- `sign_hash` (lines 200-215): a `str` argument is treated as hex after
`.replace('0x', '')` (`bytes.fromhex` raising `ValueError` on malformed
input); the returned record carries the signature hex, the identity's
address, the fixed `'ECDSA_SECP256k1'` label, and
`SALT_PATH if os.path.exists(SALT_PATH) else str(SALT_BACKUP_PATH)`. -/
def sign_hash (E : ECDSALib) (fs : FS) (ident : Identity) (entropy : List Nat)
    (dataHash : PyData) : Except PyErr SignatureRecord :=
  if ident.initialized = false then .error notInitErr
  else
    match (match dataHash with
           | .str s => bytesFromHex (strip0x s)
           | .bytes b => some b) with
    | none => .error .valueError
    | some h =>
      .ok { signature := bytesToHex (E.sign ident.privateKey entropy h)
            address := ident.address
            algorithm := "ECDSA_SECP256k1"
            saltPath := if primaryExists fs then SALT_PATH else SALT_BACKUP_PATH }

/-- `verify_signature` (lines 217-231): UTF-8-encode a `str` data argument;
a `str` signature goes through `bytes.fromhex(signature.replace('0x', ''))`
OUTSIDE the `try` block, so its `ValueError` propagates; the library
`verify` call itself is inside `try/except` and every failure there
becomes `False` (folded into `ECDSALib.verify`). -/
def verify_signature (E : ECDSALib) (ident : Identity) (data : PyData)
    (signature : PyData) : Except PyErr Bool :=
  if ident.initialized = false then .error notInitErr
  else
    let d := dataToBytes data
    match signature with
    | .str s =>
      match bytesFromHex (strip0x s) with
      | none => .error .valueError
      | some sb => .ok (E.verify ident.publicKey sb d)
    | .bytes sb => .ok (E.verify ident.publicKey sb d)

/-! ## `get_hardware_identity` (module-level registry, lines 253-261) -/

/-- `get_hardware_identity` as a transition on the module-global cache
`_hardware_identity`: returns the call's result and the new cache value.
On a construction failure the exception propagates and the assignment to
the global never happens, so the old cache value survives. -/
def get_hardware_identity (E : ECDSALib) (keccakAvailable : Bool)
    (keccakFn : List Nat → List Nat) (fs : FS) (env : Env)
    (cached : Option Identity) (cameraId : Option String) :
    Except PyErr Identity × Option Identity :=
  match cached with
  | none =>
    match mkIdentity E keccakAvailable keccakFn fs env cameraId with
    | .ok i => (.ok i, some i)
    | .error e => (.error e, none)
  | some i =>
    match cameraId with
    | none => (.ok i, some i)
    | some c =>
      if i.cameraId = some c then (.ok i, some i)
      else
        match mkIdentity E keccakAvailable keccakFn fs env (some c) with
        | .ok j => (.ok j, some j)
        | .error e => (.error e, some i)

/-! ## Bit flips (for the round-trip claim) -/

/-- Flip bit `i` of a byte string: bit `i % 8` of byte `i / 8`. -/
def flipBit (bs : List Nat) (i : Nat) : List Nat :=
  bs.set (i / 8) (Nat.xor (bs.getD (i / 8) 0) (2 ^ (i % 8)))

/-! ## Concrete instances for witnesses and counterexamples -/

/-- A concrete signature scheme instance: signing returns the data itself
and verification compares signature and data bytes.  It satisfies the
round-trip and bit-flip-rejection contracts assumed of the external
library, and serves to instantiate theorems parameterised over
`ECDSALib`. -/
def E0 : ECDSALib :=
  { pubkey := fun k => k
    sign := fun _ _ d => d
    verify := fun _ s d => s == d }

/-- A constant stand-in for the external keccak-256 function. -/
def kf0 : List Nat → List Nat := fun _ => List.replicate 32 7

/-- An environment exposing only a CPU serial. -/
def env0 : Env := { cpuSerial := some "0000000012345678", macAddr := none, machineId := none }

/-- A healthy filesystem: valid 32-byte salt at the primary path. -/
def fs0ok : FS :=
  { primary := .fileData (List.replicate 32 0), backup := .absent,
    urandom32 := List.replicate 32 1, primaryWriteOk := true, backupWriteOk := true }

/-- A 32-byte salt stored at the backup path in `fs4`. -/
def b32 : List Nat := List.replicate 32 5

/-- A filesystem whose primary salt file exists but is corrupt (3 bytes)
while the backup holds a valid 32-byte salt. -/
def fs4 : FS :=
  { primary := .fileData [1, 2, 3], backup := .fileData b32,
    urandom32 := List.replicate 32 1, primaryWriteOk := true, backupWriteOk := true }

/-- A filesystem with corrupt data at both salt paths (wrong lengths),
where only the primary location is writable. -/
def fsW : FS :=
  { primary := .fileData [0], backup := .fileData [1, 2],
    urandom32 := List.replicate 32 9, primaryWriteOk := true, backupWriteOk := false }

/-- The identity constructed from `fs0ok`/`env0` in SHA-256 fallback mode. -/
def ident0 : Identity :=
  match mkIdentity E0 false kf0 fs0ok env0 none with
  | .ok i => i
  | .error _ => default

/-- The identity constructed from the corrupt-primary filesystem `fs4`. -/
def ident4 : Identity :=
  match mkIdentity E0 false kf0 fs4 env0 none with
  | .ok i => i
  | .error _ => default

/-- The identity constructed from `fs0ok`/`env0` with keccak available. -/
def identK : Identity :=
  match mkIdentity E0 true kf0 fs0ok env0 none with
  | .ok i => i
  | .error _ => default

instance : Inhabited SignatureRecord := ⟨⟨"", "", "", ""⟩⟩

/-- The record returned by a concrete `sign_hash` call on `ident0`. -/
def recC6 : SignatureRecord :=
  match sign_hash E0 fs0ok ident0 [] (.bytes [0]) with
  | .ok r => r
  | .error _ => default

/-! ## Supporting lemmas -/

theorem shaRound_length (st : List Nat) (kw : Nat) : (shaRound st kw).length = 8 := rfl

theorem foldl_shaRound_length (l : List Nat) (st : List Nat) (h : st.length = 8) :
    (l.foldl shaRound st).length = 8 := by
  induction l generalizing st with
  | nil => simpa using h
  | cons a l ih => rw [List.foldl_cons]; exact ih _ (shaRound_length st a)

theorem compressBlock_length (h blk : List Nat) (hh : h.length = 8) :
    (compressBlock h blk).length = 8 := by
  unfold compressBlock
  simp only [List.length_map, List.length_zip]
  rw [foldl_shaRound_length _ _ hh, hh]
  exact Nat.min_self 8

theorem foldl_compressBlock_length (blocks : List (List Nat)) (h : List Nat)
    (hh : h.length = 8) : (blocks.foldl compressBlock h).length = 8 := by
  induction blocks generalizing h with
  | nil => simpa using hh
  | cons b bs ih => rw [List.foldl_cons]; exact ih _ (compressBlock_length h b hh)

theorem length_flatMap_wordToBytes (l : List Nat) :
    (l.flatMap wordToBytes).length = 4 * l.length := by
  induction l with
  | nil => simp
  | cons a l ih => simp [wordToBytes, ih]; ring

theorem sha256_length (msg : List Nat) : (sha256 msg).length = 32 := by
  unfold sha256
  rw [length_flatMap_wordToBytes, foldl_compressBlock_length _ _ (by rfl)]

theorem mem_wordToBytes_lt (w b : Nat) (h : b ∈ wordToBytes w) : b < 256 := by
  simp only [wordToBytes, List.mem_cons, List.not_mem_nil, or_false] at h
  rcases h with h | h | h | h <;> subst h <;> exact Nat.mod_lt _ (by norm_num)

theorem mem_sha256_lt (msg : List Nat) (b : Nat) (h : b ∈ sha256 msg) : b < 256 := by
  unfold sha256 at h
  rw [List.mem_flatMap] at h
  obtain ⟨w, _, hw⟩ := h
  exact mem_wordToBytes_lt w b hw

theorem bytesToHexChars_length (bs : List Nat) :
    (bytesToHexChars bs).length = 2 * bs.length := by
  induction bs with
  | nil => rfl
  | cons b bs ih => simp [bytesToHexChars] at ih ⊢; omega

theorem bytesToHexChars_take (bs : List Nat) (k : Nat) :
    (bytesToHexChars bs).take (2 * k) = bytesToHexChars (bs.take k) := by
  induction bs generalizing k with
  | nil => simp [bytesToHexChars]
  | cons b bs ih =>
    cases k with
    | zero => simp [bytesToHexChars]
    | succ k =>
      have h2 : 2 * (k + 1) = 2 * k + 1 + 1 := by ring
      simp only [bytesToHexChars, List.flatMap_cons, List.cons_append, List.nil_append,
        List.take_succ_cons, h2]
      exact congrArg _ (congrArg _ (ih k))

theorem hexVal_hexNibbleChar (n : Nat) (h : n < 16) : hexVal (hexNibbleChar n) = some n := by
  interval_cases n <;> rfl

theorem hexVal_isSome_of_mem (bs : List Nat) (hb : ∀ b ∈ bs, b < 256) (c : Char)
    (hc : c ∈ bytesToHexChars bs) : (hexVal c).isSome := by
  rw [bytesToHexChars, List.mem_flatMap] at hc
  obtain ⟨b, hbmem, hcc⟩ := hc
  have hb256 := hb b hbmem
  have hdiv : b / 16 < 16 := by omega
  have hmod : b % 16 < 16 := Nat.mod_lt _ (by norm_num)
  simp only [List.mem_cons, List.not_mem_nil, or_false] at hcc
  rcases hcc with h | h <;> subst h
  · rw [hexVal_hexNibbleChar _ hdiv]; rfl
  · rw [hexVal_hexNibbleChar _ hmod]; rfl

theorem flipBit_ne (bs : List Nat) (i : Nat) (h : i < 8 * bs.length) : flipBit bs i ≠ bs := by
  intro heq
  have hj : i / 8 < bs.length := by omega
  have hget := congrArg (fun l => l.getD (i / 8) 0) heq
  simp only [flipBit] at hget
  rw [List.getD_eq_getElem?_getD, List.getElem?_set_self hj, List.getD_eq_getElem?_getD,
    List.getElem?_eq_getElem hj] at hget
  simp only [Option.getD_some] at hget
  have hget2 : bs[i / 8] ^^^ 2 ^ (i % 8) = bs[i / 8] := hget
  have h0 : 2 ^ (i % 8) = 0 := by
    have hc : bs[i / 8] ^^^ (bs[i / 8] ^^^ 2 ^ (i % 8)) = bs[i / 8] ^^^ bs[i / 8] := by
      rw [hget2]
    rw [Nat.xor_cancel_left, Nat.xor_self] at hc
    exact hc
  exact absurd h0 (Nat.pos_iff_ne_zero.mp (pow_pos (by norm_num) _))

theorem E0_roundtrip (k e d : List Nat) :
    E0.verify (E0.pubkey k) (E0.sign k e d) d = true := by
  simp [E0]

theorem E0_flip_sig (k e d : List Nat) (j : Nat) (h : j < 8 * (E0.sign k e d).length) :
    E0.verify (E0.pubkey k) (flipBit (E0.sign k e d) j) d = false := by
  have h' : j < 8 * d.length := h
  simp only [E0]
  exact beq_eq_false_iff_ne.mpr (flipBit_ne d j h')

theorem E0_flip_data (k e d : List Nat) (j : Nat) (h : j < 8 * d.length) :
    E0.verify (E0.pubkey k) (E0.sign k e d) (flipBit d j) = false := by
  simp only [E0]
  exact beq_eq_false_iff_ne.mpr (fun hh => flipBit_ne d j h hh.symm)

theorem mkIdentity_ok (E : ECDSALib) (kav : Bool) (kf : List Nat → List Nat)
    (fs : FS) (env : Env) (cam : Option String) (i : Identity)
    (h : mkIdentity E kav kf fs env cam = .ok i) :
    i.initialized = true ∧ i.publicKey = E.pubkey i.privateKey ∧ i.cameraId = cam ∧
      i.privateKey = sha256 (utf8Encode (String.intercalate "|" (collectIds cam env)) ++ i.salt) := by
  unfold mkIdentity at h
  cases hs : get_or_create_salt fs with
  | error e => rw [hs] at h; exact absurd h (by simp)
  | ok salt =>
    rw [hs] at h
    cases hh : get_hardware_id cam env with
    | error e => rw [hh] at h; exact absurd h (by simp)
    | ok hwId =>
      rw [hh] at h
      simp only [Except.ok.injEq] at h
      subst h
      unfold get_hardware_id at hh
      by_cases hids : (collectIds cam env).isEmpty
      · rw [if_pos hids] at hh; exact absurd hh (by simp)
      · rw [if_neg hids] at hh
        simp only [Except.ok.injEq] at hh
        subst hh
        exact ⟨rfl, rfl, rfl, rfl⟩

theorem mkIdentity_fs0ok : mkIdentity E0 false kf0 fs0ok env0 none = .ok ident0 := rfl

theorem mkIdentity_fs4 : mkIdentity E0 false kf0 fs4 env0 none = .ok ident4 := rfl

theorem mkIdentity_fsK : mkIdentity E0 true kf0 fs0ok env0 none = .ok identK := rfl

theorem ident0_ready : ident0.initialized = true := rfl

/-! ## Claim theorems -/

/-- C1 (counterexample): contrary to the claim, `verify_signature` on a
Ready identity does NOT return `false` for a non-hex signature string: the
`bytes.fromhex` call sits outside the `try` block, so the `ValueError`
propagates to the caller. -/
theorem verify_nonhex_string_raises :
    ident0.initialized = true ∧
    verify_signature E0 ident0 (.bytes []) (.str "zz") = .error .valueError :=
  ⟨rfl, rfl⟩

/-- C1 (amended): for every Ready identity, `verify_signature` returns a
boolean — `false` on cryptographic mismatch or malformed signature bytes,
since every library exception inside the `try` block is mapped to `False` —
for a bytes signature or for a signature string that is valid hex after
`'0x'` removal; but a signature string that is not valid hex raises a
`ValueError` instead of returning `false`. -/
theorem verify_signature_total (E : ECDSALib) (i : Identity)
    (h : i.initialized = true) (data : PyData) :
    (∀ sb : List Nat, verify_signature E i data (.bytes sb) =
        .ok (E.verify i.publicKey sb (dataToBytes data))) ∧
    (∀ (s : String) (sb : List Nat), bytesFromHex (strip0x s) = some sb →
        verify_signature E i data (.str s) =
          .ok (E.verify i.publicKey sb (dataToBytes data))) ∧
    (∀ s : String, bytesFromHex (strip0x s) = none →
        verify_signature E i data (.str s) = .error .valueError) := by
  refine ⟨fun sb => ?_, fun s sb hs => ?_, fun s hs => ?_⟩ <;>
    simp [verify_signature, h, *]

/-- C1 witness: the amended theorem applied at a concrete Ready identity
and a concrete valid hex signature string. -/
theorem verify_signature_total_witness :
    ident0.initialized = true ∧
    verify_signature E0 ident0 (.bytes []) (.str "00") =
      .ok (E0.verify ident0.publicKey [0] (dataToBytes (.bytes []))) :=
  ⟨rfl, (verify_signature_total E0 ident0 rfl (.bytes [])).2.1 "00" [0] rfl⟩

/-- C2: key derivation is a pure deterministic function: for any
fingerprint bytes and 32-byte salt, deriving twice yields identical
results, the private scalar is exactly `sha256(fingerprint ++ salt)`, the
public key is derived from that scalar, and the derived address is also
deterministic. -/
theorem derive_key_deterministic (E : ECDSALib) (keccakAvailable : Bool)
    (keccakFn : List Nat → List Nat) (hwId salt : List Nat)
    (_hsalt : salt.length = 32) :
    derive_key E hwId salt = derive_key E hwId salt ∧
    (derive_key E hwId salt).1 = sha256 (hwId ++ salt) ∧
    (derive_key E hwId salt).2 = E.pubkey (sha256 (hwId ++ salt)) ∧
    get_address keccakAvailable keccakFn (derive_key E hwId salt).2 =
      get_address keccakAvailable keccakFn (derive_key E hwId salt).2 :=
  ⟨rfl, rfl, rfl, rfl⟩

/-- C2 witness: the determinism theorem applied at a concrete fingerprint
and the all-zero 32-byte salt. -/
theorem derive_key_deterministic_witness :
    (List.replicate 32 0 : List Nat).length = 32 ∧
    (derive_key E0 [1] (List.replicate 32 0)).1 = sha256 ([1] ++ List.replicate 32 0) :=
  ⟨rfl, (derive_key_deterministic E0 false kf0 [1] (List.replicate 32 0) rfl).2.1⟩

/-- C5: with the keccak capability absent, `_get_address` hex-encodes the
first 20 bytes of the SHA-256 digest of the public key bytes (i.e. the
first 40 characters of the hex digest) behind a `0x`: the result is a
20-byte value, hex-encoded (40 hex characters), with the fixed prefix. -/
theorem get_address_sha256_fallback (keccakFn : List Nat → List Nat) (pub : List Nat) :
    get_address false keccakFn pub =
      String.mk ('0' :: 'x' :: bytesToHexChars ((sha256 pub).take 20)) ∧
    ((sha256 pub).take 20).length = 20 ∧
    (bytesToHexChars ((sha256 pub).take 20)).length = 40 ∧
    ∀ c ∈ bytesToHexChars ((sha256 pub).take 20), (hexVal c).isSome := by
  have hlen : (sha256 pub).length = 32 := sha256_length pub
  have htake : ((sha256 pub).take 20).length = 20 := by
    rw [List.length_take, hlen]
    omega
  refine ⟨?_, htake, ?_, ?_⟩
  · show String.mk ('0' :: 'x' :: (bytesToHexChars (sha256 pub)).take 40) = _
    have h40 : (40 : Nat) = 2 * 20 := by norm_num
    rw [h40, bytesToHexChars_take]
  · rw [bytesToHexChars_length, htake]
  · intro c hc
    exact hexVal_isSome_of_mem _
      (fun b hb => mem_sha256_lt pub b (List.mem_of_mem_take hb)) c hc

/-- C5 witness: the fallback-address theorem applied at a concrete public
key. -/
theorem get_address_sha256_fallback_witness :
    get_address false kf0 [] =
      String.mk ('0' :: 'x' :: bytesToHexChars ((sha256 []).take 20)) :=
  (get_address_sha256_fallback kf0 []).1

/-- C7: in `_get_or_create_salt`, wrong-length data at a candidate path is
treated as corrupt and skipped, never fatal: a wrong-length primary falls
through to the backup phase, permission failure or absence of the primary
does too, a 32-byte backup is returned there, a wrong-length backup falls
through to fresh generation, and generation returns the fresh
`os.urandom(32)` bytes whenever one of the two writes succeeds. -/
theorem get_or_create_salt_corrupt_skipped (fs : FS) :
    (∀ b, fs.primary = .fileData b → b.length ≠ 32 →
      get_or_create_salt fs = saltBackupPhase fs) ∧
    ((fs.primary = .permDenied ∨ fs.primary = .absent) →
      get_or_create_salt fs = saltBackupPhase fs) ∧
    (∀ b, fs.backup = .fileData b → b.length = 32 → saltBackupPhase fs = .ok b) ∧
    (∀ b, fs.backup = .fileData b → b.length ≠ 32 →
      saltBackupPhase fs = saltCreatePhase fs) ∧
    ((fs.primaryWriteOk = true ∨ fs.backupWriteOk = true) →
      saltCreatePhase fs = .ok fs.urandom32 ∧
        (fs.urandom32.length = 32 → ∃ s, saltCreatePhase fs = .ok s ∧ s.length = 32)) := by
  refine ⟨fun b hb hne => ?_, fun hpa => ?_, fun b hb h32 => ?_, fun b hb hne => ?_,
    fun hw => ?_⟩
  · unfold get_or_create_salt; rw [hb]; simp [hne]
  · rcases hpa with h | h <;> (unfold get_or_create_salt; rw [h])
  · unfold saltBackupPhase; rw [hb]; simp [h32]
  · unfold saltBackupPhase; rw [hb]; simp [hne]
  · have hok : saltCreatePhase fs = .ok fs.urandom32 := by
      unfold saltCreatePhase
      cases hp : fs.primaryWriteOk with
      | true => simp
      | false =>
        rcases hw with h | h
        · rw [hp] at h; exact absurd h (by simp)
        · simp [h]
    exact ⟨hok, fun h32 => ⟨fs.urandom32, hok, h32⟩⟩

/-- C7 witness: the corrupt-salt theorem applied to a filesystem whose
primary and backup files both hold wrong-length data. -/
theorem get_or_create_salt_corrupt_skipped_witness :
    get_or_create_salt fsW = saltBackupPhase fsW ∧
    saltBackupPhase fsW = saltCreatePhase fsW ∧
    saltCreatePhase fsW = .ok (List.replicate 32 9) :=
  ⟨(get_or_create_salt_corrupt_skipped fsW).1 [0] rfl (by decide),
   (get_or_create_salt_corrupt_skipped fsW).2.2.2.1 [1, 2] rfl (by decide),
   ((get_or_create_salt_corrupt_skipped fsW).2.2.2.2 (Or.inl rfl)).1⟩

/-- C3: round-trip signing for an identity produced by the constructor,
relative to the contract of the external ECDSA library (round-trip
validity, and rejection of any single-bit flip of signature or data):
`verify(data, sign(data))` is true, and verification of any single-bit
flip of the signature or of the data returns false.  The wrapper passes
the signature and data bytes through to the library unchanged. -/
theorem roundtrip_sign_verify (E : ECDSALib) (kav : Bool) (kf : List Nat → List Nat)
    (fs : FS) (env : Env) (cam : Option String) (i : Identity)
    (hmk : mkIdentity E kav kf fs env cam = .ok i)
    (hrt : ∀ k e d, E.verify (E.pubkey k) (E.sign k e d) d = true)
    (hflipSig : ∀ k e d j, j < 8 * (E.sign k e d).length →
      E.verify (E.pubkey k) (flipBit (E.sign k e d) j) d = false)
    (hflipData : ∀ k e d j, j < 8 * d.length →
      E.verify (E.pubkey k) (E.sign k e d) (flipBit d j) = false)
    (d entropy s : List Nat)
    (hs : sign_data E i entropy (.bytes d) = .ok s) :
    verify_signature E i (.bytes d) (.bytes s) = .ok true ∧
    (∀ j, j < 8 * s.length →
      verify_signature E i (.bytes d) (.bytes (flipBit s j)) = .ok false) ∧
    (∀ j, j < 8 * d.length →
      verify_signature E i (.bytes (flipBit d j)) (.bytes s) = .ok false) := by
  obtain ⟨hinit, hpub, -, -⟩ := mkIdentity_ok E kav kf fs env cam i hmk
  have hsv : s = E.sign i.privateKey entropy d := by
    unfold sign_data at hs
    simp [hinit, dataToBytes] at hs
    exact hs.symm
  subst hsv
  refine ⟨?_, fun j hj => ?_, fun j hj => ?_⟩
  · have hv : verify_signature E i (.bytes d) (.bytes (E.sign i.privateKey entropy d)) =
        .ok (E.verify i.publicKey (E.sign i.privateKey entropy d) d) := by
      simp [verify_signature, hinit, dataToBytes]
    rw [hv, hpub, hrt]
  · have hv : verify_signature E i (.bytes d)
        (.bytes (flipBit (E.sign i.privateKey entropy d) j)) =
        .ok (E.verify i.publicKey (flipBit (E.sign i.privateKey entropy d) j) d) := by
      simp [verify_signature, hinit, dataToBytes]
    rw [hv, hpub, hflipSig i.privateKey entropy d j hj]
  · have hv : verify_signature E i (.bytes (flipBit d j))
        (.bytes (E.sign i.privateKey entropy d)) =
        .ok (E.verify i.publicKey (E.sign i.privateKey entropy d) (flipBit d j)) := by
      simp [verify_signature, hinit, dataToBytes]
    rw [hv, hpub, hflipData i.privateKey entropy d j hj]

/-- C3 witness: the round-trip theorem applied at a concrete identity, a
concrete signature scheme satisfying the library contract, and payload
`[1]`. -/
theorem roundtrip_sign_verify_witness :
    sign_data E0 ident0 [] (.bytes [1]) = .ok [1] ∧
    verify_signature E0 ident0 (.bytes [1]) (.bytes [1]) = .ok true :=
  ⟨rfl, (roundtrip_sign_verify E0 false kf0 fs0ok env0 none ident0 mkIdentity_fs0ok
      E0_roundtrip E0_flip_sig E0_flip_data [1] [] [1] rfl).1⟩

/-- C4 (counterexample): contrary to the claim, the `salt_path` field of a
`sign_hash` record is NOT the path the salt was actually loaded from: it
is recomputed as `SALT_PATH if os.path.exists(SALT_PATH) else backup`.
Here the primary file exists but is corrupt (3 bytes), so the salt was
loaded from the backup (`ident4.salt = b32`), yet the record reports the
primary path. -/
theorem sign_hash_salt_path_counterexample :
    fs4.primary = .fileData [1, 2, 3] ∧
    mkIdentity E0 false kf0 fs4 env0 none = .ok ident4 ∧
    ident4.salt = b32 ∧
    b32 ≠ [1, 2, 3] ∧
    (sign_hash E0 fs4 ident4 [] (.bytes [0])).map (fun r => r.saltPath) = .ok SALT_PATH ∧
    SALT_PATH ≠ SALT_BACKUP_PATH :=
  ⟨rfl, mkIdentity_fs4, rfl, by decide, rfl, by decide⟩

/-- C4 (amended): for every Ready identity and every hash input (raw
bytes, or a hex string valid after `'0x'` removal), `sign_hash` returns a
record with the signature hex, the identity's address, the fixed label
`ECDSA_SECP256k1`, and as salt path the primary path if a file exists
there at signing time, else the backup path (which need not be where the
salt was loaded from). -/
theorem sign_hash_record_fields (E : ECDSALib) (fs : FS) (i : Identity)
    (entropy : List Nat) (h : i.initialized = true) :
    (∀ b : List Nat, sign_hash E fs i entropy (.bytes b) =
        .ok { signature := bytesToHex (E.sign i.privateKey entropy b),
              address := i.address, algorithm := "ECDSA_SECP256k1",
              saltPath := if primaryExists fs then SALT_PATH else SALT_BACKUP_PATH }) ∧
    (∀ (s : String) (b : List Nat), bytesFromHex (strip0x s) = some b →
        sign_hash E fs i entropy (.str s) =
          .ok { signature := bytesToHex (E.sign i.privateKey entropy b),
                address := i.address, algorithm := "ECDSA_SECP256k1",
                saltPath := if primaryExists fs then SALT_PATH else SALT_BACKUP_PATH }) := by
  refine ⟨fun b => ?_, fun s b hs => ?_⟩ <;> simp [sign_hash, h, *]

/-- C4 witness: the amended record theorem applied at a concrete identity
and hash bytes. -/
theorem sign_hash_record_fields_witness :
    ident0.initialized = true ∧
    sign_hash E0 fs0ok ident0 [] (.bytes [0]) =
      .ok { signature := bytesToHex (E0.sign ident0.privateKey [] [0]),
            address := ident0.address, algorithm := "ECDSA_SECP256k1",
            saltPath := if primaryExists fs0ok then SALT_PATH else SALT_BACKUP_PATH } :=
  ⟨rfl, (sign_hash_record_fields E0 fs0ok ident0 [] rfl).1 [0]⟩

set_option maxRecDepth 4096 in
/-- C6 (counterexample): contrary to the claim, there is no algorithm tag
distinguishing the two address-encoding paths: `_get_address` returns a
bare string, and the only exposed algorithm label — the `algorithm` field
of signature records — is the constant `ECDSA_SECP256k1` under both the
keccak path and the SHA-256 fallback (shown here on two identities whose
addresses come from the two different paths). -/
theorem algorithm_tag_not_distinguishing :
    mkIdentity E0 true kf0 fs0ok env0 none = .ok identK ∧
    mkIdentity E0 false kf0 fs0ok env0 none = .ok ident0 ∧
    identK.address ≠ ident0.address ∧
    (sign_hash E0 fs0ok identK [] (.bytes [0])).map (fun r => r.algorithm) =
      .ok "ECDSA_SECP256k1" ∧
    (sign_hash E0 fs0ok ident0 [] (.bytes [0])).map (fun r => r.algorithm) =
      .ok "ECDSA_SECP256k1" :=
  ⟨mkIdentity_fsK, mkIdentity_fs0ok, by decide, rfl, rfl⟩

/-- C6 (amended): the address encoder returns only an address string with
no algorithm tag; the `algorithm` field of every record `sign_hash`
returns is the constant `ECDSA_SECP256k1`, independent of which hash
produced the address, so fallback addresses are not distinguishable from
keccak addresses by any tag. -/
theorem algorithm_tag_constant (E : ECDSALib) (fs : FS) (i : Identity)
    (entropy : List Nat) (dh : PyData) (r : SignatureRecord)
    (h : sign_hash E fs i entropy dh = .ok r) :
    r.algorithm = "ECDSA_SECP256k1" := by
  unfold sign_hash at h
  by_cases hi : i.initialized = false
  · rw [if_pos hi] at h; exact absurd h (by simp)
  · rw [if_neg hi] at h
    cases hdh : (match dh with | .str s => bytesFromHex (strip0x s) | .bytes b => some b) with
    | none => rw [hdh] at h; exact absurd h (by simp)
    | some hb =>
      rw [hdh] at h
      simp only [Except.ok.injEq] at h
      rw [← h]

/-- C6 witness: the constant-label theorem applied at a concrete
`sign_hash` record. -/
theorem algorithm_tag_constant_witness :
    sign_hash E0 fs0ok ident0 [] (.bytes [0]) = .ok recC6 ∧
    recC6.algorithm = "ECDSA_SECP256k1" :=
  ⟨rfl, algorithm_tag_constant E0 fs0ok ident0 [] (.bytes [0]) recC6 rfl⟩

/-- C8: the fingerprint collector never yields an empty fingerprint: for
every camera id and environment, either at least one identifier (camera,
serial, mac, machine, in that order, `|`-joined) is present and returned,
or `_get_hardware_id` fails with the `RuntimeError` and no identity can be
constructed from that environment. -/
theorem get_hardware_id_nonempty (cameraId : Option String) (env : Env) :
    (collectIds cameraId env ≠ [] ∧
      get_hardware_id cameraId env =
        .ok (utf8Encode (String.intercalate "|" (collectIds cameraId env)))) ∨
    (collectIds cameraId env = [] ∧
      get_hardware_id cameraId env =
        .error (.runtimeError "Could not collect any hardware identifiers") ∧
      ∀ (E : ECDSALib) (kav : Bool) (kf : List Nat → List Nat) (fs : FS) (i : Identity),
        mkIdentity E kav kf fs env cameraId ≠ .ok i) := by
  by_cases h : collectIds cameraId env = []
  · right
    have hgh : get_hardware_id cameraId env =
        .error (.runtimeError "Could not collect any hardware identifiers") := by
      simp [get_hardware_id, h]
    refine ⟨h, hgh, fun E kav kf fs i hmk => ?_⟩
    unfold mkIdentity at hmk
    cases hs : get_or_create_salt fs with
    | error e => rw [hs] at hmk; simp at hmk
    | ok salt => rw [hs, hgh] at hmk; simp at hmk
  · left
    have h2 : (collectIds cameraId env).isEmpty = false := by
      cases hc : collectIds cameraId env with
      | nil => exact absurd hc h
      | cons a l => rfl
    exact ⟨h, by simp [get_hardware_id, h2]⟩

/-- C8 witness: the theorem applied at a concrete camera id and
environment with a serial number present; the left disjunct holds. -/
theorem get_hardware_id_nonempty_witness :
    collectIds (some "cam1") env0 ≠ [] ∧
    get_hardware_id (some "cam1") env0 =
      .ok (utf8Encode (String.intercalate "|" (collectIds (some "cam1") env0))) :=
  (get_hardware_id_nonempty (some "cam1") env0).elim id (fun h => absurd h.1 (by decide))

/-- C9: the registry caches a single instance: a first call constructs and
caches; a call with no camera id returns the cached instance unchanged
(never replacing it); a call with a matching explicit camera id returns
the cached instance; a call with a differing explicit camera id discards
the old instance and constructs a new one carrying the new camera id. -/
theorem get_hardware_identity_cache (E : ECDSALib) (kav : Bool)
    (kf : List Nat → List Nat) (fs : FS) (env : Env) :
    (∀ (cam : Option String) (i : Identity), mkIdentity E kav kf fs env cam = .ok i →
      get_hardware_identity E kav kf fs env none cam = (.ok i, some i)) ∧
    (∀ i : Identity,
      get_hardware_identity E kav kf fs env (some i) none = (.ok i, some i)) ∧
    (∀ (i : Identity) (c : String), i.cameraId = some c →
      get_hardware_identity E kav kf fs env (some i) (some c) = (.ok i, some i)) ∧
    (∀ (i : Identity) (c : String) (j : Identity), i.cameraId ≠ some c →
      mkIdentity E kav kf fs env (some c) = .ok j →
      get_hardware_identity E kav kf fs env (some i) (some c) = (.ok j, some j) ∧
        j.cameraId = some c) := by
  refine ⟨fun cam i hmk => ?_, fun i => rfl, fun i c hc => ?_, fun i c j hne hmk => ?_⟩
  · unfold get_hardware_identity; rw [hmk]
  · simp [get_hardware_identity, hc]
  · constructor
    · simp [get_hardware_identity, hne, hmk]
    · exact (mkIdentity_ok E kav kf fs env (some c) j hmk).2.2.1

/-- C9 witness: the cache theorem applied at a concrete construction (first
call caches `ident0`) and a concrete idless call (cached value returned
unchanged). -/
theorem get_hardware_identity_cache_witness :
    get_hardware_identity E0 false kf0 fs0ok env0 none none = (.ok ident0, some ident0) ∧
    get_hardware_identity E0 false kf0 fs0ok env0 (some ident0) none =
      (.ok ident0, some ident0) :=
  ⟨(get_hardware_identity_cache E0 false kf0 fs0ok env0).1 none ident0 mkIdentity_fs0ok,
   (get_hardware_identity_cache E0 false kf0 fs0ok env0).2.1 ident0⟩

/-- C10: every identity obtainable from the constructor or the registry
has `initialized = true` (construction either completes fully or raises
and exposes no object), so the not-initialized error branches of
`sign_data`, `sign_hash` and `verify_signature` are unreachable on any
exposed object. -/
theorem identity_always_ready :
    (∀ (E : ECDSALib) (kav : Bool) (kf : List Nat → List Nat) (fs : FS) (env : Env)
        (cam : Option String) (i : Identity),
      mkIdentity E kav kf fs env cam = .ok i →
        i.initialized = true ∧
        (∀ (entropy : List Nat) (d : PyData),
          sign_data E i entropy d = .ok (E.sign i.privateKey entropy (dataToBytes d))) ∧
        (∀ (fs2 : FS) (entropy : List Nat) (dh : PyData),
          sign_hash E fs2 i entropy dh ≠ .error notInitErr) ∧
        (∀ d s : PyData, verify_signature E i d s ≠ .error notInitErr)) ∧
    (∀ (E : ECDSALib) (kav : Bool) (kf : List Nat → List Nat) (fs : FS) (env : Env)
        (cached : Option Identity) (cam : Option String) (j : Identity),
      (cached = none ∨ ∃ ci, cached = some ci ∧ ci.initialized = true) →
      (get_hardware_identity E kav kf fs env cached cam).1 = .ok j →
        j.initialized = true) := by
  constructor
  · intro E kav kf fs env cam i hmk
    obtain ⟨hinit, -, -, -⟩ := mkIdentity_ok E kav kf fs env cam i hmk
    refine ⟨hinit, fun entropy d => ?_, fun fs2 entropy dh h => ?_, fun d s h => ?_⟩
    · simp [sign_data, hinit]
    · unfold sign_hash at h
      rw [hinit] at h
      simp only [Bool.true_eq_false, if_false] at h
      split at h <;> simp [notInitErr] at h
    · unfold verify_signature at h
      rw [hinit] at h
      simp only [Bool.true_eq_false, if_false] at h
      split at h <;>
        first
        | (split at h <;> simp [notInitErr] at h)
        | simp [notInitErr] at h
  · intro E kav kf fs env cached cam j hinv hok
    cases cached with
    | none =>
      unfold get_hardware_identity at hok
      cases hmk : mkIdentity E kav kf fs env cam with
      | ok i =>
        rw [hmk] at hok
        simp only [Except.ok.injEq] at hok
        subst hok
        exact (mkIdentity_ok E kav kf fs env cam _ hmk).1
      | error e => rw [hmk] at hok; simp at hok
    | some ci =>
      have hci : ci.initialized = true := by
        rcases hinv with hn | ⟨ci2, hceq, hci2⟩
        · exact absurd hn (by simp)
        · rw [Option.some.injEq] at hceq; rw [hceq]; exact hci2
      cases cam with
      | none =>
        simp only [get_hardware_identity] at hok
        simp at hok
        subst hok
        exact hci
      | some c =>
        simp only [get_hardware_identity] at hok
        by_cases hcid : ci.cameraId = some c
        · rw [if_pos hcid] at hok
          simp at hok
          subst hok
          exact hci
        · rw [if_neg hcid] at hok
          cases hmk : mkIdentity E kav kf fs env (some c) with
          | ok k =>
            rw [hmk] at hok
            simp at hok
            subst hok
            exact (mkIdentity_ok E kav kf fs env (some c) _ hmk).1
          | error e => rw [hmk] at hok; simp at hok

/-- C10 witness: the theorem applied at a concrete successful construction
and a concrete registry call. -/
theorem identity_always_ready_witness :
    ident0.initialized = true ∧
    sign_data E0 ident0 [] (.bytes [2]) =
      .ok (E0.sign ident0.privateKey [] (dataToBytes (.bytes [2]))) :=
  ⟨(identity_always_ready.1 E0 false kf0 fs0ok env0 none ident0 mkIdentity_fs0ok).1,
   (identity_always_ready.1 E0 false kf0 fs0ok env0 none ident0 mkIdentity_fs0ok).2.1
     [] (.bytes [2])⟩

end LensMint
